import Mathlib

/-!
Shallow embedding of the ziptrader-backtest caption-analysis core
(`src/caption_analyzer.py`).  The NLP collaborators (summarization and
sentiment classification pipelines) and the sqlite registry read are
modelled as explicit oracle parameters; every other computation
(sentence segmentation, company-name normalization, whole-word mention
matching, context-block assembly, sentiment mapping, persistence) is
translated from the Python source.  Character classes (`\w`, `\s`,
upper/lower) are the ASCII ones; all inputs considered here are ASCII.
-/

namespace ZipTrader

/-- Python regex word character `\w` (ASCII fragment): alphanumeric or
underscore. -/
def isWordChar (c : Char) : Bool :=
  c.isAlphanum || c = '_'

/-- Python regex whitespace `\s` (ASCII fragment). -/
def isPySpace (c : Char) : Bool :=
  c = ' ' || c = '\t' || c = '\n' || c = '\r' || c = '\x0b' || c = '\x0c'

/-- Whether the character at index `i` of `cs` is a word character
(out-of-range counts as non-word, matching regex edge semantics). -/
def wordAt (cs : List Char) (i : Nat) : Bool :=
  match cs.get? i with
  | some c => isWordChar c
  | none => false

/-- Regex word boundary `\b` before index `i` of `cs`: the word-ness of
the character to the left differs from the word-ness of the character at
`i` (string edges count as non-word). -/
def boundaryAt (cs : List Char) (i : Nat) : Bool :=
  (if i = 0 then false else wordAt cs (i - 1)) != wordAt cs i

/-- The literal `ls` occurs in `cs` starting at index `i`. -/
def litAt (cs ls : List Char) (i : Nat) : Bool :=
  decide ((cs.drop i).take ls.length = ls)

/-- `re.search(r'\b' + re.escape(lit) + r'\b', s, re.IGNORECASE)` viewed
as a Boolean: some position of `s` carries the literal `lit`
case-insensitively with word boundaries on both sides.  When `lit` is
empty the pattern degenerates to `\b\b`, which matches at any word
boundary of `s`. -/
def searchWholeWord (lit s : String) : Bool :=
  let cs := s.toList.map Char.toLower
  let ls := lit.toList.map Char.toLower
  (List.range (cs.length + 1)).any fun i =>
    boundaryAt cs i && litAt cs ls i && boundaryAt cs (i + ls.length)

/-- Python `str.strip()` (ASCII whitespace fragment) on a char list. -/
def stripChars (cs : List Char) : List Char :=
  ((cs.dropWhile isPySpace).reverse.dropWhile isPySpace).reverse

/-- Python `str.strip()` on a string. -/
def pyStrip (s : String) : String :=
  String.mk (stripChars s.toList)

/-- Python `str.upper()` (ASCII fragment). -/
def pyUpper (s : String) : String :=
  String.mk (s.toList.map Char.toUpper)

/-- The alternatives of the legal-suffix group
`(Inc|LLC|Corp|Corporation)`, in the order the regex engine tries
them. -/
def legalSuffixes : List (List Char) :=
  [['I','n','c'], ['L','L','C'], ['C','o','r','p'],
   ['C','o','r','p','o','r','a','t','i','o','n']]

/-- Case-insensitive occurrence of literal `ls` at index `i` of `cs`. -/
def litAtCI (cs ls : List Char) (i : Nat) : Bool :=
  litAt (cs.map Char.toLower) (ls.map Char.toLower) i

/-- Try to match `\b(Inc|LLC|Corp|Corporation)\b` at index `i` of `cs`
(case-insensitive); returns the length of the first alternative that
matches, as the regex engine would. -/
def matchAltAt (cs : List Char) (i : Nat) : Option Nat :=
  if boundaryAt cs i then
    (legalSuffixes.filter fun ls =>
        litAtCI cs ls i && boundaryAt cs (i + ls.length)).head?.map List.length
  else
    none

/-- Leftmost non-overlapping matches of the legal-suffix pattern in
`cs`, as `(start, length)` pairs; `fuel` bounds the scan. -/
def scanMatches (cs : List Char) (i fuel : Nat) : List (Nat × Nat) :=
  match fuel with
  | 0 => []
  | fuel' + 1 =>
    if i ≥ cs.length then []
    else
      match matchAltAt cs i with
      | some len => (i, len) :: scanMatches cs (i + len) fuel'
      | none => scanMatches cs (i + 1) fuel'

/-- Delete the spans `ms` (substitution by the empty string). -/
def applyRemovals (cs : List Char) (ms : List (Nat × Nat)) : List Char :=
  ((List.range cs.length).filter fun i =>
      ¬ ms.any fun m => m.1 ≤ i ∧ i < m.1 + m.2).filterMap cs.get?

/-- `re.sub(r'\b(Inc|LLC|Corp|Corporation)\b', '', name, flags=re.IGNORECASE).strip()`
from `analyze_text` (caption_analyzer.py line 57). -/
def cleanCompanyName (name : String) : String :=
  let cs := name.toList
  pyStrip (String.mk (applyRemovals cs (scanMatches cs 0 (cs.length + 1))))

/-- Split point of
`re.split(r'(?<!\w\.\w.)(?<![A-Z][a-z]\.)(?<=\.|\?)\s', padded)` at
index `i` of the padded char list: a whitespace character preceded by
`.` or `?`, excluding positions where the 4 characters before it match
`\w\.\w.` or the 3 characters before it match `[A-Z][a-z]\.`. -/
def isSplitPoint (cs : List Char) (i : Nat) : Bool :=
  match cs.get? i with
  | none => false
  | some c =>
    isPySpace c &&
    (match i, cs.get? (i - 1) with
     | 0, _ => false
     | _, none => false
     | _ + 1, some p =>
       (p = '.' || p = '?') &&
       !(decide (4 ≤ i) && wordAt cs (i - 4) &&
         decide (cs.get? (i - 3) = some '.') && wordAt cs (i - 2)) &&
       !(decide (3 ≤ i) &&
         (match cs.get? (i - 3) with
          | some u => u.isUpper
          | none => false) &&
         (match cs.get? (i - 2) with
          | some l => l.isLower
          | none => false) && p = '.'))

/-- Split `cs` at the given index set, dropping the split characters;
`acc` accumulates the current fragment in reverse. -/
def splitAux (cs : List Char) (split : Nat → Bool) (i : Nat)
    (acc : List Char) : List (List Char) :=
  match cs with
  | [] => [acc.reverse]
  | c :: rest =>
    if split i then
      acc.reverse :: splitAux rest split (i + 1) []
    else
      splitAux rest split (i + 1) (c :: acc)

/-- Sentence segmentation of `analyze_text` (caption_analyzer.py lines
51–52): pad the text with one space on each side, then apply the
abbreviation-aware split. -/
def segmentSentences (text : String) : List String :=
  let padded := (' ' :: text.toList) ++ [' ']
  (splitAux padded (isSplitPoint padded) 0 []).map String.mk

/-- One element of the sentiment pipeline's output list: a Python dict
with optional `label` and `score` keys (`result.get` supplies defaults,
so the fields are modelled as options). Scores are modelled as
rationals. -/
structure SentimentResult where
  label? : Option String
  score? : Option ℚ
  deriving DecidableEq, Repr

/-- `_get_numerical_sentiment` (caption_analyzer.py lines 15–24). -/
def _get_numerical_sentiment (result : SentimentResult) : ℚ :=
  let lab := result.label?.getD "Neutral"
  let score := result.score?.getD 1
  if lab = "Positive" then 1 * score
  else if lab = "Negative" then -1 * score
  else 0

/-- Round a rational to the nearest integer, ties to even (Python's
`round` tie rule). -/
def roundHalfEven (q : ℚ) : ℤ :=
  let f := ⌊q⌋
  let r := q - f
  if r < 1 / 2 then f
  else if 1 / 2 < r then f + 1
  else if f % 2 = 0 then f else f + 1

/-- Python `round(x, 4)`: round to 4 decimal places. -/
def round4 (q : ℚ) : ℚ :=
  (roundHalfEven (q * 10000) : ℚ) / 10000

/-- A row of the `companies` registry table. -/
structure Company where
  ticker : String
  name : String
  deriving DecidableEq, Repr

/-- One per-stock record of the analysis result dict. -/
structure StockMention where
  stock_name : String
  sentiment : ℚ
  explanation : String
  deriving DecidableEq, Repr

/-- The dict returned by `analyze_text`. -/
structure AnalysisResult where
  summary : String
  stocks : List StockMention
  deriving DecidableEq, Repr

/-- Collaborator invocations performed during `analyze_text`, recorded
in order: the registry read, the main-summary summarizer call, a
per-company context summarizer call, a sentiment-classifier call. -/
inductive Event where
  | registryRead
  | mainSumm
  | ctxSumm
  | classify
  deriving DecidableEq, Repr

/-- A summarization collaborator: text, min length, max length; raises
(`.error`) or returns the pipeline's output list of `summary_text`
strings. -/
def Summarizer : Type :=
  String → Nat → Nat → Except Unit (List String)

/-- A sentiment-classification collaborator: raises (`.error`) or
returns the pipeline's output list. -/
def Classifier : Type :=
  String → Except Unit (List SentimentResult)

/-- The mention record appended at caption_analyzer.py lines 87–92. -/
def mkMention (ticker explanation : String) (r : SentimentResult) :
    StockMention :=
  { stock_name := ticker,
    sentiment := round4 (_get_numerical_sentiment r),
    explanation := explanation }

/-- caption_analyzer.py line 61: the sentences matching the company's
ticker or cleaned name as case-insensitive whole words, each stripped
(the match is tested on the unstripped sentence). -/
def mentionsOf (sentences : List String) (c : Company) : List String :=
  (sentences.filter fun s =>
      searchWholeWord c.ticker s ||
      searchWholeWord (cleanCompanyName c.name) s).map pyStrip

/-- caption_analyzer.py line 66: `". ".join(mentions).strip()`. -/
def contextBlockOf (sentences : List String) (c : Company) : String :=
  pyStrip (String.intercalate ". " (mentionsOf sentences c))

/-- caption_analyzer.py lines 70–81: the explanation text — the context
block verbatim below the 100-character threshold; otherwise the first
summarizer output, the empty string on an empty summarizer result, and
the raw context block when the summarizer raises. -/
def explanationOf (summarizer : Summarizer) (sentences : List String)
    (c : Company) : String :=
  let cb := contextBlockOf sentences c
  if cb.length < 100 then cb
  else
    match summarizer cb 20 120 with
    | .error _ => cb
    | .ok [] => ""
    | .ok (s :: _) => s

/-- The per-company loop body of `analyze_text` (caption_analyzer.py
lines 54–100): the optional mention produced for the company, with the
collaborator calls it performed. -/
def processCompany (sentences : List String) (summarizer : Summarizer)
    (classifier : Classifier) (c : Company) :
    Option StockMention × List Event :=
  let ms := mentionsOf sentences c
  if ms = [] then (none, [])
  else
    let cb := contextBlockOf sentences c
    if cb = "" then (none, [])
    else
      let sEvents := if cb.length < 100 then [] else [Event.ctxSumm]
      let e := explanationOf summarizer sentences c
      if e = "" then (none, sEvents)
      else
        match classifier e with
        | .error _ => (none, sEvents ++ [Event.classify])
        | .ok [] => (none, sEvents ++ [Event.classify])
        | .ok (r :: _) =>
          (some (mkMention c.ticker e r), sEvents ++ [Event.classify])

/-- The `stocks` list accumulated over a registry fragment. -/
def stocksFor (sentences : List String) (summarizer : Summarizer)
    (classifier : Classifier) (companies : List Company) :
    List StockMention :=
  (companies.map (processCompany sentences summarizer classifier)).filterMap
    Prod.fst

/-- `analyze_text` (caption_analyzer.py lines 27–105).  The sqlite read
of the `companies` table is the `registry` argument (`.error` for a
`sqlite3.Error`); the summarization and sentiment pipelines are the
oracle arguments.  Returns the result dict together with the trace of
collaborator invocations. -/
def analyze_text (text : String) (registry : Except Unit (List Company))
    (summarizer : Summarizer) (classifier : Classifier) :
    AnalysisResult × List Event :=
  if text = "" ∨ pyStrip text = "" then (⟨"", []⟩, [])
  else
    match registry with
    | .error _ => (⟨"", []⟩, [Event.registryRead])
    | .ok companies =>
      let mainSummary :=
        match summarizer text 75 300 with
        | .error _ => ""
        | .ok [] => ""
        | .ok (s :: _) => s
      let sentences := segmentSentences text
      let perCompany :=
        companies.map (processCompany sentences summarizer classifier)
      (⟨mainSummary, perCompany.filterMap Prod.fst⟩,
       Event.registryRead :: Event.mainSumm ::
         (perCompany.map Prod.snd).flatten)

/-- A row of the `analysis_results` table (`video_id` is the primary
key; dates are kept as display strings). -/
structure AnalysisRow where
  video_id : String
  tickers : String
  sentiment : String
  summary : String
  analysis_date : String
  publish_date : String
  deriving DecidableEq, Repr

/-- caption_analyzer.py lines 116–125: the overall sentiment label —
`"NEUTRAL"` for an empty summary, a raised classifier error, or an
empty classifier result (the `[0]` IndexError is caught); otherwise the
upper-cased label of the first classifier result. -/
def deriveSentimentLabel (classifier : Classifier)
    (summary_text : String) : String :=
  if summary_text = "" then "NEUTRAL"
  else
    match classifier summary_text with
    | .error _ => "NEUTRAL"
    | .ok [] => "NEUTRAL"
    | .ok (r :: _) => pyUpper (r.label?.getD "Neutral")

/-- Decimal value of a digit list. -/
def digitsToNat (cs : List Char) : Nat :=
  cs.foldl (fun a c => a * 10 + (c.toNat - 48)) 0

/-- Gregorian leap year. -/
def isLeapYear (y : Nat) : Bool :=
  (y % 4 = 0 && y % 100 ≠ 0) || y % 400 = 0

/-- Days in a month. -/
def daysInMonth (y m : Nat) : Nat :=
  if m = 2 then (if isLeapYear y then 29 else 28)
  else if m = 4 || m = 6 || m = 9 || m = 11 then 30
  else 31

/-- caption_analyzer.py line 127:
`datetime.strptime(publish_date, "%Y%m%d").strftime("%Y-%m-%d")`,
restricted to 8-character inputs: `none` models the `ValueError` raised
on malformed input (wrong shape or out-of-range calendar fields). -/
def formatDate (s : String) : Option String :=
  let cs := s.toList
  if cs.length = 8 && cs.all Char.isDigit then
    let y := digitsToNat (cs.take 4)
    let m := digitsToNat ((cs.drop 4).take 2)
    let d := digitsToNat (cs.drop 6)
    if 1 ≤ y && 1 ≤ m && m ≤ 12 && 1 ≤ d && d ≤ daysInMonth y m then
      some (String.mk (cs.take 4) ++ "-" ++ String.mk ((cs.drop 4).take 2)
            ++ "-" ++ String.mk (cs.drop 6))
    else none
  else none

/-- The row bound at caption_analyzer.py lines 129–132. -/
def buildRow (video_id formatted today : String)
    (analysis : AnalysisResult) (classifier : Classifier) : AnalysisRow :=
  { video_id := video_id,
    tickers := String.intercalate "," (analysis.stocks.map StockMention.stock_name),
    sentiment := deriveSentimentLabel classifier analysis.summary,
    summary := analysis.summary,
    analysis_date := today,
    publish_date := formatted }

/-- SQLite `INSERT OR REPLACE` on a table whose primary key is
`video_id`: the conflicting row is deleted and the new row inserted. -/
def upsertRow (db : List AnalysisRow) (row : AnalysisRow) :
    List AnalysisRow :=
  (db.filter fun r => r.video_id != row.video_id) ++ [row]

/-- `save_analysis_to_db` (caption_analyzer.py lines 108–139).  The
table is the `db` list; `today` is `date.today()`.  A malformed
`publish_date` raises inside the try block, which is caught, so no
write happens and the table is returned unchanged. -/
def save_analysis_to_db (video_id publish_date : String)
    (analysis : AnalysisResult) (classifier : Classifier)
    (today : String) (db : List AnalysisRow) : List AnalysisRow :=
  match formatDate publish_date with
  | none => db
  | some f => upsertRow db (buildRow video_id f today analysis classifier)

/-- The rows of the table holding a given `video_id`. -/
def rowsFor (db : List AnalysisRow) (v : String) : List AnalysisRow :=
  db.filter fun r => r.video_id == v

/-! Concrete collaborators and inputs used to exercise the model. -/

/-- A summarizer that always raises. -/
def sumFail : Summarizer := fun _ _ _ => .error ()

/-- A summarizer that succeeds with an empty result list. -/
def sumEmpty : Summarizer := fun _ _ _ => .ok []

/-- A summarizer that always returns one fixed summary. -/
def sumOk : Summarizer := fun _ _ _ => .ok ["S"]

/-- A classifier that always raises. -/
def clFail : Classifier := fun _ => .error ()

/-- A classifier that always returns one Positive result with
confidence 0.9. -/
def clPos : Classifier := fun _ => .ok [⟨some "Positive", some (9 / 10)⟩]

/-- A sample company whose name carries a legal suffix. -/
def aaplCo : Company := ⟨"AAPL", "Apple Inc"⟩

/-- A sample sentence of more than 100 characters mentioning Apple. -/
def longSentence : String :=
  "Apple rallied strongly today as analysts praised its artificial intelligence strategy and raised their price targets."

/-! ## Helper lemmas -/

/-- A company with no matching sentence has an empty context block. -/
theorem contextBlockOf_of_mentions_nil {sentences : List String}
    {c : Company} (h : mentionsOf sentences c = []) :
    contextBlockOf sentences c = "" := by
  unfold contextBlockOf
  rw [h]
  rfl

/-- A rational that is already a whole multiple of 1/10000 is fixed by
rounding to 4 decimal places. -/
theorem round4_eq_self (q : ℚ) (n : ℤ) (h : q * 10000 = (n : ℚ)) :
    round4 q = q := by
  simp only [round4, roundHalfEven, h, Int.floor_intCast, sub_self]
  rw [if_pos (by norm_num : (0:ℚ) < 1/2), ← h]
  field_simp

/-- Rounding zero to 4 decimal places gives zero. -/
theorem round4_zero : round4 0 = 0 :=
  round4_eq_self 0 0 (by norm_num)

/-- Field laws of `mkMention`. -/
theorem mkMention_explanation (t e : String) (r : SentimentResult) :
    (mkMention t e r).explanation = e := rfl

/-- When the transcript guard passes and the registry read succeeds,
the `stocks` of `analyze_text` are the per-company results in registry
order. -/
theorem analyze_text_stocks (text : String) (companies : List Company)
    (summarizer : Summarizer) (classifier : Classifier)
    (h : ¬ (text = "" ∨ pyStrip text = "")) :
    (analyze_text text (Except.ok companies) summarizer classifier).1.stocks
      = stocksFor (segmentSentences text) summarizer classifier companies := by
  simp only [analyze_text, stocksFor, if_neg h]

/-- A company whose per-company processing produced a mention
contributes it to the `stocks` accumulated over any registry that
contains the company. -/
theorem mem_stocksFor {sentences : List String} {summarizer : Summarizer}
    {classifier : Classifier} {c : Company} {m : StockMention}
    (hm : (processCompany sentences summarizer classifier c).1 = some m)
    (l1 l2 : List Company) :
    m ∈ stocksFor sentences summarizer classifier (l1 ++ c :: l2) := by
  unfold stocksFor
  refine List.mem_filterMap.mpr
    ⟨processCompany sentences summarizer classifier c, ?_, hm⟩
  exact List.mem_map_of_mem _ (by simp)

/-- A company whose per-company processing produced no mention
contributes nothing to the accumulated `stocks`. -/
theorem stocksFor_append_of_none {sentences : List String}
    {summarizer : Summarizer} {classifier : Classifier} {c : Company}
    (h : (processCompany sentences summarizer classifier c).1 = none)
    (l1 l2 : List Company) :
    stocksFor sentences summarizer classifier (l1 ++ c :: l2)
      = stocksFor sentences summarizer classifier l1
        ++ stocksFor sentences summarizer classifier l2 := by
  simp only [stocksFor, List.map_append, List.filterMap_append,
    List.map_cons, List.filterMap_cons, h]

/-! ## Claims -/

set_option maxRecDepth 100000 in
/-- C1: contrary to the claim, a company whose display name consists
only of legal-entity suffixes is matched against every sentence: the
cleaned name is empty, so the name pattern degenerates to a bare pair
of word boundaries, which matches any sentence containing a word
character.  Here the registry holds ticker ZZZQ with name Inc, the
transcript mentions neither, yet `analyze_text` emits a mention for
ZZZQ. -/
theorem C1_empty_name_matches_everything :
    cleanCompanyName "Inc" = ""
    ∧ searchWholeWord "ZZZQ" "The market fell sharply today." = false
    ∧ searchWholeWord (cleanCompanyName "Inc")
        "The market fell sharply today." = true
    ∧ ((analyze_text "The market fell sharply today."
          (Except.ok [⟨"ZZZQ", "Inc"⟩]) sumOk clPos).1.stocks.map
        StockMention.stock_name) = ["ZZZQ"] := by
  exact ⟨by decide, by decide, by decide, by decide⟩

/-- C3 counterexample: segmenting the padded transcript
"U.S. stocks rose." yields a list of two elements — the whole padded
sentence and one trailing empty fragment — not exactly one sentence. -/
theorem C3_counterexample :
    segmentSentences "U.S. stocks rose." = [" U.S. stocks rose.", ""]
    ∧ (segmentSentences "U.S. stocks rose.").length ≠ 1 := by
  exact ⟨by decide, by decide⟩

/-- C3 (amended): segmenting "U.S. stocks rose." performs no split
after "U.S." (index 5 of the padded text is not a split point); the
only split is at the trailing padding space, so the output is the whole
padded text as its single non-empty sentence plus one trailing empty
fragment (empty strings are not filtered at this stage). -/
theorem C3_no_split_after_abbreviation :
    isSplitPoint ((' ' :: ("U.S. stocks rose.").toList) ++ [' ']) 5 = false
    ∧ segmentSentences "U.S. stocks rose." = [" U.S. stocks rose.", ""]
    ∧ ((segmentSentences "U.S. stocks rose.").filter
        (fun s => s != "")) = [" U.S. stocks rose."] := by
  exact ⟨by decide, by decide, by decide⟩

/-- C4: for a transcript that is empty or whitespace-only,
`analyze_text` returns `{summary := "", stocks := []}` with an empty
collaborator trace (no registry read, no summarization, no
classification); and for a failed registry read it returns the same
result dict without propagating the error. -/
theorem C4_fail_soft (text : String) (registry : Except Unit (List Company))
    (summarizer : Summarizer) (classifier : Classifier)
    (h : pyStrip text = "") :
    analyze_text text registry summarizer classifier = (⟨"", []⟩, [])
    ∧ ∀ (t : String) (s2 : Summarizer) (c2 : Classifier),
        (analyze_text t (Except.error ()) s2 c2).1 = ⟨"", []⟩ := by
  constructor
  · simp only [analyze_text]
    rw [if_pos (Or.inr h)]
  · intro t s2 c2
    simp only [analyze_text]
    by_cases hg : t = "" ∨ pyStrip t = ""
    · rw [if_pos hg]
    · rw [if_neg hg]

/-- Witness for C4 at a whitespace-only transcript and a failing
registry. -/
theorem C4_witness :
    analyze_text "  " (Except.ok [aaplCo]) sumOk clPos = (⟨"", []⟩, [])
    ∧ (analyze_text "x." (Except.error ()) sumOk clPos).1 = ⟨"", []⟩ := by
  have h := C4_fail_soft "  " (Except.ok [aaplCo]) sumOk clPos (by decide)
  exact ⟨h.1, h.2 "x." sumOk clPos⟩

/-- C5: the numeric sentiment stored in a mention is the classifier's
confidence with sign +1 for Positive, −1 for Negative, and 0 for
Neutral or any other label, rounded to 4 decimal places; in particular
two Positive results with scores 0.9 and 0.5 yield exactly +0.9 and
+0.5. -/
theorem C5_sentiment_mapping (t e lab : String) (s : ℚ) :
    (mkMention t e ⟨some lab, some s⟩).sentiment
      = (if lab = "Positive" then round4 s
         else if lab = "Negative" then round4 (-s) else 0)
    ∧ (mkMention t e ⟨some "Positive", some (9 / 10)⟩).sentiment = 9 / 10
    ∧ (mkMention t e ⟨some "Positive", some (1 / 2)⟩).sentiment = 1 / 2
    ∧ (mkMention t e ⟨some "Negative", some (9 / 10)⟩).sentiment
        = -(9 / 10) := by
  refine ⟨?_, ?_, ?_, ?_⟩
  · by_cases hP : lab = "Positive"
    · simp [mkMention, _get_numerical_sentiment, hP, one_mul]
    · by_cases hN : lab = "Negative"
      · simp [mkMention, _get_numerical_sentiment, hP, hN, neg_one_mul]
      · simp [mkMention, _get_numerical_sentiment, hP, hN, round4_zero]
  · show round4 (1 * (9 / 10)) = 9 / 10
    rw [one_mul]
    exact round4_eq_self _ 9000 (by norm_num)
  · show round4 (1 * (1 / 2)) = 1 / 2
    rw [one_mul]
    exact round4_eq_self _ 5000 (by norm_num)
  · show round4 (-1 * (9 / 10)) = -(9 / 10)
    rw [neg_one_mul]
    exact round4_eq_self _ (-9000) (by norm_num)

/-- C2: when the joined context block is at least 100 characters long
and the summarization collaborator raises, the explanation falls back
to the raw context block, and — provided classification succeeds on
that fallback text — the company's mention is emitted and appears in
the `stocks` of `analyze_text` for any registry containing the
company. -/
theorem C2_summarizer_failure_fallback (sentences : List String)
    (summarizer : Summarizer) (classifier : Classifier) (c : Company)
    (r : SentimentResult) (rest : List SentimentResult)
    (hlen : 100 ≤ (contextBlockOf sentences c).length)
    (hsum : summarizer (contextBlockOf sentences c) 20 120 = .error ())
    (hcl : classifier (contextBlockOf sentences c) = .ok (r :: rest)) :
    (processCompany sentences summarizer classifier c).1
      = some (mkMention c.ticker (contextBlockOf sentences c) r)
    ∧ (mkMention c.ticker (contextBlockOf sentences c) r).explanation
      = contextBlockOf sentences c
    ∧ ∀ (text : String) (l1 l2 : List Company),
        pyStrip text ≠ "" → segmentSentences text = sentences →
        mkMention c.ticker (contextBlockOf sentences c) r ∈
          (analyze_text text (Except.ok (l1 ++ c :: l2)) summarizer
            classifier).1.stocks := by
  have hcb : contextBlockOf sentences c ≠ "" := by
    intro h
    rw [h] at hlen
    exact absurd hlen (by decide)
  have hms : mentionsOf sentences c ≠ [] :=
    fun hm => hcb (contextBlockOf_of_mentions_nil hm)
  have hnl : ¬ (contextBlockOf sentences c).length < 100 := by omega
  have he : explanationOf summarizer sentences c
      = contextBlockOf sentences c := by
    unfold explanationOf
    rw [if_neg hnl, hsum]
  have h1 : (processCompany sentences summarizer classifier c).1
      = some (mkMention c.ticker (contextBlockOf sentences c) r) := by
    simp [processCompany, hms, hcb, he, hcl]
  refine ⟨h1, rfl, ?_⟩
  intro text l1 l2 htext hseg
  have hguard : ¬ (text = "" ∨ pyStrip text = "") := by
    rintro (h | h)
    · exact htext (by rw [h]; rfl)
    · exact htext h
  rw [analyze_text_stocks text _ summarizer classifier hguard, hseg]
  exact mem_stocksFor h1 l1 l2

set_option maxRecDepth 100000 in
/-- Witness for C2: a 100+-character context block, a raising
summarizer, and a succeeding classifier yield the fallback mention. -/
theorem C2_witness :
    (processCompany [longSentence] sumFail clPos aaplCo).1
      = some (mkMention aaplCo.ticker (contextBlockOf [longSentence] aaplCo)
          ⟨some "Positive", some (9 / 10)⟩)
    ∧ 100 ≤ (contextBlockOf [longSentence] aaplCo).length := by
  have h := C2_summarizer_failure_fallback [longSentence] sumFail clPos
    aaplCo ⟨some "Positive", some (9 / 10)⟩ [] (by decide) rfl rfl
  exact ⟨h.1, by decide⟩

/-- C7: when sentiment classification raises or returns an empty
result for the company's explanation, no mention is emitted for that
company, and the `stocks` accumulated over a registry containing it are
exactly those of the remaining companies. -/
theorem C7_classification_failure_skips_company (sentences : List String)
    (summarizer : Summarizer) (classifier : Classifier) (c : Company)
    (hfail : classifier (explanationOf summarizer sentences c) = .error ()
      ∨ classifier (explanationOf summarizer sentences c) = .ok []) :
    (processCompany sentences summarizer classifier c).1 = none
    ∧ ∀ l1 l2 : List Company,
        stocksFor sentences summarizer classifier (l1 ++ c :: l2)
          = stocksFor sentences summarizer classifier l1
            ++ stocksFor sentences summarizer classifier l2 := by
  have h1 : (processCompany sentences summarizer classifier c).1 = none := by
    by_cases hms : mentionsOf sentences c = []
    · simp [processCompany, hms]
    · by_cases hcb : contextBlockOf sentences c = ""
      · simp [processCompany, hms, hcb]
      · by_cases he : explanationOf summarizer sentences c = ""
        · simp [processCompany, hms, hcb, he]
        · rcases hfail with h | h <;>
            simp [processCompany, hms, hcb, he, h]
  exact ⟨h1, fun l1 l2 => stocksFor_append_of_none h1 l1 l2⟩

/-- Witness for C7 with a raising classifier. -/
theorem C7_witness :
    (processCompany ["Apple rose."] sumOk clFail aaplCo).1 = none
    ∧ stocksFor ["Apple rose."] sumOk clFail ([] ++ aaplCo :: [])
        = stocksFor ["Apple rose."] sumOk clFail []
          ++ stocksFor ["Apple rose."] sumOk clFail [] := by
  have h := C7_classification_failure_skips_company ["Apple rose."]
    sumOk clFail aaplCo (Or.inl rfl)
  exact ⟨h.1, h.2 [] []⟩

/-- C8: a non-empty context block shorter than 100 characters is never
routed through the summarization collaborator (no context-summarizer
event in the company's trace), and any mention emitted for the company
carries the trimmed context block verbatim as its explanation. -/
theorem C8_short_text_bypass (sentences : List String)
    (summarizer : Summarizer) (classifier : Classifier) (c : Company)
    (hne : contextBlockOf sentences c ≠ "")
    (hlen : (contextBlockOf sentences c).length < 100) :
    Event.ctxSumm ∉ (processCompany sentences summarizer classifier c).2
    ∧ explanationOf summarizer sentences c = contextBlockOf sentences c
    ∧ ∀ m, (processCompany sentences summarizer classifier c).1 = some m →
        m.explanation = contextBlockOf sentences c := by
  have hms : mentionsOf sentences c ≠ [] :=
    fun hm => hne (contextBlockOf_of_mentions_nil hm)
  have he : explanationOf summarizer sentences c
      = contextBlockOf sentences c := by
    unfold explanationOf
    rw [if_pos hlen]
  refine ⟨?_, he, ?_⟩
  · simp only [processCompany, if_neg hms, if_neg hne, if_pos hlen, he]
    cases hc : classifier (contextBlockOf sentences c) with
    | error e => simp
    | ok res => cases res <;> simp
  · intro m hm
    simp only [processCompany, if_neg hms, if_neg hne, if_pos hlen, he] at hm
    cases hc : classifier (contextBlockOf sentences c) with
    | error e => rw [hc] at hm; simp at hm
    | ok res =>
      cases res with
      | nil => rw [hc] at hm; simp at hm
      | cons r rest =>
        rw [hc] at hm
        simp only [Option.some.injEq] at hm
        rw [← hm]
        rfl

/-- Witness for C8 at an 11-character context block. -/
theorem C8_witness :
    Event.ctxSumm ∉ (processCompany ["Apple rose."] sumFail clPos aaplCo).2
    ∧ explanationOf sumFail ["Apple rose."] aaplCo
        = contextBlockOf ["Apple rose."] aaplCo := by
  have h := C8_short_text_bypass ["Apple rose."] sumFail clPos aaplCo
    (by decide) (by decide)
  exact ⟨h.1, h.2.1⟩

/-- C10: when the context block is at least 100 characters long and the
summarizer succeeds but returns an empty result list or an empty
summary text, the explanation stays empty and the company is skipped —
no mention is emitted no matter what the classifier would answer (the
raw-context fallback applies only when the summarizer raises). -/
theorem C10_empty_summarizer_result_skips (sentences : List String)
    (summarizer : Summarizer) (c : Company)
    (hlen : 100 ≤ (contextBlockOf sentences c).length)
    (hsum : summarizer (contextBlockOf sentences c) 20 120 = .ok []
      ∨ ∃ rest, summarizer (contextBlockOf sentences c) 20 120
          = .ok ("" :: rest)) :
    explanationOf summarizer sentences c = ""
    ∧ ∀ classifier : Classifier,
        (processCompany sentences summarizer classifier c).1 = none := by
  have hnl : ¬ (contextBlockOf sentences c).length < 100 := by omega
  have he : explanationOf summarizer sentences c = "" := by
    unfold explanationOf
    rw [if_neg hnl]
    rcases hsum with h | ⟨rest, h⟩ <;> rw [h]
  refine ⟨he, fun classifier => ?_⟩
  by_cases hms : mentionsOf sentences c = []
  · simp [processCompany, hms]
  · by_cases hcb : contextBlockOf sentences c = ""
    · simp [processCompany, hms, hcb]
    · simp [processCompany, hms, hcb, he]

set_option maxRecDepth 100000 in
/-- Witness for C10 with a summarizer succeeding on an empty result
list; the classifier would succeed on the raw context block, yet no
mention is produced. -/
theorem C10_witness :
    explanationOf sumEmpty [longSentence] aaplCo = ""
    ∧ (processCompany [longSentence] sumEmpty clPos aaplCo).1 = none := by
  have h := C10_empty_summarizer_result_skips [longSentence] sumEmpty
    aaplCo (by decide) (Or.inl rfl)
  exact ⟨h.1, h.2 clPos⟩

/-- Re-upserting a row with the same key erases the first upsert. -/
theorem upsertRow_twice (db : List AnalysisRow) (r1 r2 : AnalysisRow)
    (h : r1.video_id = r2.video_id) :
    upsertRow (upsertRow db r1) r2 = upsertRow db r2 := by
  unfold upsertRow
  rw [List.filter_append]
  have h1 : List.filter (fun r => r.video_id != r2.video_id) [r1] = [] := by
    simp [List.filter, h]
  rw [h1, List.append_nil, List.filter_filter]
  simp only [h, Bool.and_self]

/-- After an upsert, the rows carrying the upserted key are exactly the
new row. -/
theorem rowsFor_upsertRow (db : List AnalysisRow) (r : AnalysisRow) :
    rowsFor (upsertRow db r) r.video_id = [r] := by
  unfold rowsFor upsertRow
  rw [List.filter_append]
  have h1 : List.filter (fun x => x.video_id == r.video_id)
      (List.filter (fun x => x.video_id != r.video_id) db) = [] := by
    rw [List.filter_eq_nil_iff]
    intro a ha
    have h2 := (List.mem_filter.mp ha).2
    simp only [bne_iff_ne, ne_eq] at h2
    simp [h2]
  rw [h1]
  simp

/-- C6: `save_analysis_to_db` is an upsert keyed by `video_id`: saving
twice for the same video with different analyses equals saving only the
second one, and leaves exactly one row for that video, holding the
second payload. -/
theorem C6_save_is_upsert (db : List AnalysisRow)
    (v pub f today1 today2 : String) (a1 a2 : AnalysisResult)
    (classifier : Classifier) (h : formatDate pub = some f) :
    save_analysis_to_db v pub a2 classifier today2
        (save_analysis_to_db v pub a1 classifier today1 db)
      = save_analysis_to_db v pub a2 classifier today2 db
    ∧ rowsFor (save_analysis_to_db v pub a2 classifier today2
        (save_analysis_to_db v pub a1 classifier today1 db)) v
      = [buildRow v f today2 a2 classifier] := by
  have e1 : save_analysis_to_db v pub a1 classifier today1 db
      = upsertRow db (buildRow v f today1 a1 classifier) := by
    simp only [save_analysis_to_db, h]
  have e2 : ∀ d, save_analysis_to_db v pub a2 classifier today2 d
      = upsertRow d (buildRow v f today2 a2 classifier) := by
    intro d
    simp only [save_analysis_to_db, h]
  rw [e1, e2, e2]
  constructor
  · exact upsertRow_twice db (buildRow v f today1 a1 classifier)
      (buildRow v f today2 a2 classifier) rfl
  · rw [upsertRow_twice db (buildRow v f today1 a1 classifier)
      (buildRow v f today2 a2 classifier) rfl]
    exact rowsFor_upsertRow db (buildRow v f today2 a2 classifier)

/-- Witness for C6: two saves for video V1 with different payloads. -/
theorem C6_witness :
    save_analysis_to_db "V1" "20240102" ⟨"good", [⟨"AAPL", 0, "x"⟩]⟩ clPos
        "2024-05-06"
        (save_analysis_to_db "V1" "20240102" ⟨"bad", []⟩ clPos
          "2024-05-05" [])
      = save_analysis_to_db "V1" "20240102" ⟨"good", [⟨"AAPL", 0, "x"⟩]⟩
          clPos "2024-05-06" []
    ∧ rowsFor (save_analysis_to_db "V1" "20240102"
        ⟨"good", [⟨"AAPL", 0, "x"⟩]⟩ clPos "2024-05-06"
        (save_analysis_to_db "V1" "20240102" ⟨"bad", []⟩ clPos
          "2024-05-05" [])) "V1"
      = [buildRow "V1" "2024-01-02" "2024-05-06"
          ⟨"good", [⟨"AAPL", 0, "x"⟩]⟩ clPos] :=
  C6_save_is_upsert [] "V1" "20240102" "2024-01-02" "2024-05-05"
    "2024-05-06" ⟨"bad", []⟩ ⟨"good", [⟨"AAPL", 0, "x"⟩]⟩ clPos (by decide)

/-- C9 counterexample: the persisted sentiment field is the upper-cased
classifier label, not the label itself: with a classifier answering
label Positive on the summary "good news", the saved row carries
"POSITIVE", which differs from the returned label "Positive". -/
theorem C9_counterexample :
    ((save_analysis_to_db "V1" "20240102" ⟨"good news", []⟩ clPos
        "2024-05-05" []).map AnalysisRow.sentiment) = ["POSITIVE"]
    ∧ clPos "good news" = .ok [⟨some "Positive", some (9 / 10)⟩]
    ∧ ("POSITIVE" : String) ≠ "Positive" := by
  exact ⟨by decide, rfl, by decide⟩

/-- C9 (amended): the persisted row is the upsert of a row whose
`tickers` field comma-joins the `stock_name` values of
`analysis.stocks` in order, and whose `sentiment` field is the
UPPER-CASED label obtained by classifying `analysis.summary` when the
summary is non-empty, defaulting to "NEUTRAL" when the summary is empty
or classification raises or returns no result. -/
theorem C9_persisted_fields (db : List AnalysisRow) (v pub f today : String)
    (a : AnalysisResult) (classifier : Classifier)
    (h : formatDate pub = some f) :
    save_analysis_to_db v pub a classifier today db
      = upsertRow db (buildRow v f today a classifier)
    ∧ (buildRow v f today a classifier).tickers
      = String.intercalate "," (a.stocks.map StockMention.stock_name)
    ∧ (buildRow v f today a classifier).sentiment
      = (if a.summary = "" then "NEUTRAL"
         else
           match classifier a.summary with
           | .error _ => "NEUTRAL"
           | .ok [] => "NEUTRAL"
           | .ok (r :: _) => pyUpper (r.label?.getD "Neutral")) := by
  refine ⟨?_, rfl, rfl⟩
  simp only [save_analysis_to_db, h]

/-- Witness for C9 (amended) at a concrete save. -/
theorem C9_witness :
    save_analysis_to_db "V1" "20240102"
        ⟨"good news", [⟨"AAPL", 0, "x"⟩, ⟨"MSFT", 0, "y"⟩]⟩ clPos
        "2024-05-05" []
      = upsertRow [] (buildRow "V1" "2024-01-02" "2024-05-05"
          ⟨"good news", [⟨"AAPL", 0, "x"⟩, ⟨"MSFT", 0, "y"⟩]⟩ clPos) :=
  (C9_persisted_fields [] "V1" "20240102" "2024-01-02" "2024-05-05"
    ⟨"good news", [⟨"AAPL", 0, "x"⟩, ⟨"MSFT", 0, "y"⟩]⟩ clPos
    (by decide)).1

end ZipTrader
